import Mathlib

/-!
Shallow embedding of `src/bastion/src/children.rs`: the children-group
subsystem of the bastion actor runtime.  The group driver (`Children`),
the element driver (`Child`) and the reference handles (`ChildrenRef`,
`ChildRef`) are translated into pure Lean transition functions.

Modelling conventions:
* `BastionId`s are `Nat`; the broadcast layer guarantees they are
  process-unique and never recycled, which the model reflects with a
  fresh-id counter (`nextId`).
* User payloads are `Nat`.
* Calls into the broadcast endpoint (`send_children`, `stop_children`,
  `kill_children`, `stopped`, `faulted`) and handle cancellation are
  recorded as an ordered list of `Event`s: the broadcast endpoint lives
  in `broadcast.rs`, outside the embedded file, and is modelled from the
  spec's interface description (fan-out downward, `Stopped{id}` /
  `Faulted{id}` upward to the parent).
* The async run loops poll their inbox without suspending; a run of the
  loop is driven by a finite trace of inbox poll results
  (`InboxPoll.ready msg`, `.closed` for `Poll::Ready(None)`,
  `.pending`).  A `Child`'s user future is modelled as the list of
  results its successive polls produce.
* `unreachable!` / `unimplemented!` arms become the `panicked` outcome.
-/

/-- The kind of tag carried by a user `Message` envelope: produced by
`BastionMessage::broadcast`, `::tell` or `::ask` (`message.rs`, outside
the embedded file; modelled from the spec's message taxonomy). -/
inductive MsgKind where
  | tellMsg
  | broadcastMsg
  | askMsg
deriving DecidableEq

/-- The closed set of `BastionMessage` variants (`message.rs`, modelled
from the spec's message list §3): lifecycle signals, user payloads, and
upward terminal notices. -/
inductive BastionMessage where
  | start
  | stop
  | kill
  | deploy
  | prune
  | superviseWith
  | message (kind : MsgKind) (payload : Nat)
  | stopped (id : Nat)
  | faulted (id : Nat)
deriving DecidableEq

/-- Observable effects of the group / element drivers on their broadcast
endpoint and on the element task handles.  `sendChildren` is the
downward fan-out, `stoppedUp` / `faultedUp` are the upward notices
`bcast.stopped()` / `bcast.faulted()` send to the parent. -/
inductive Event where
  | sendChildren (msg : BastionMessage)
  | stopChildren
  | killChildren
  | cancelHandle (id : Nat)
  | stoppedUp (id : Nat)
  | faultedUp (id : Nat)
deriving DecidableEq

/-- One non-blocking probe of an entity's inbox stream: a message, the
closed stream (`Poll::Ready(None)`), or `Poll::Pending`. -/
inductive InboxPoll where
  | ready (msg : BastionMessage)
  | closed
  | pending
deriving DecidableEq

/-- State of a `Children` group driver (struct `Children`): broadcast id,
the keys of the `launched` map (id -> (sender, handle)), the redundancy
count, the pre-start message buffer and the activation flag.  `nextId`
models the process-global fresh-id source used by `Broadcast::new`. -/
structure ChildrenSt where
  id : Nat
  launched : List Nat
  redundancy : Nat
  preStartMsgs : List BastionMessage
  started : Bool
  nextId : Nat
deriving DecidableEq

/-- `Children::new`: empty launched map, default init, redundancy 1,
empty pre-start buffer, not started. -/
def childrenNew (id : Nat) : ChildrenSt :=
  { id := id
    launched := []
    redundancy := 1
    preStartMsgs := []
    started := false
    nextId := id + 1 }

/-- `Children::stop`: fan out `Stop` via `bcast.stop_children()`, then
drain the `launched` map and await every handle. -/
def childrenStop (st : ChildrenSt) : ChildrenSt × List Event :=
  ({ st with launched := [] }, [Event.stopChildren])

/-- `Children::kill`: fan out `Kill` via `bcast.kill_children()`, then
drain the `launched` map, cancelling every handle before awaiting it. -/
def childrenKill (st : ChildrenSt) : ChildrenSt × List Event :=
  ({ st with launched := [] },
    Event.killChildren :: st.launched.map Event.cancelHandle)

/-- `Children::handle`: dispatch one inbox message.  Result `none`
models a panicking arm (`unreachable!` on `Start`, `unimplemented!` on
`Deploy`/`Prune`/`SuperviseWith`); `some (st, evs, true)` is `Ok(())`,
`some (st, evs, false)` is `Err(())` (terminate the run loop). -/
def childrenHandle (st : ChildrenSt) (msg : BastionMessage) :
    Option (ChildrenSt × List Event × Bool) :=
  match msg with
  | .start => none
  | .stop =>
      let r := childrenStop st
      some (r.1, r.2 ++ [Event.stoppedUp st.id], false)
  | .kill =>
      let r := childrenKill st
      some (r.1, r.2 ++ [Event.stoppedUp st.id], false)
  | .deploy => none
  | .prune => none
  | .superviseWith => none
  | .message k p => some (st, [Event.sendChildren (.message k p)], true)
  | .stopped cid =>
      if cid ∈ st.launched then
        let r := childrenStop st
        some (r.1, r.2 ++ [Event.stoppedUp st.id], false)
      else
        some (st, [], true)
  | .faulted cid =>
      if cid ∈ st.launched then
        let r := childrenKill st
        some (r.1, r.2 ++ [Event.faultedUp st.id], false)
      else
        some (st, [], true)

/-- Outcome of running a group driver against a finite inbox trace:
the loop returned (terminal), is still looping after the trace, or hit
a panicking arm.  Events are those emitted during the run. -/
inductive ChildrenRunOutcome where
  | returned (st : ChildrenSt) (events : List Event)
  | running (st : ChildrenSt) (events : List Event)
  | panicked (events : List Event)
deriving DecidableEq

/-- Prefix previously-emitted events onto a run outcome. -/
def prependEvents (evs : List Event) : ChildrenRunOutcome → ChildrenRunOutcome
  | .returned st e => .returned st (evs ++ e)
  | .running st e => .running st (evs ++ e)
  | .panicked e => .panicked (evs ++ e)

/-- The replay loop inside `Children::run`'s `Start` arm: feed each
buffered message through `Children::handle`, stopping at the first
`Err(())`. -/
def childrenReplay (st : ChildrenSt) :
    List BastionMessage → Option (ChildrenSt × List Event × Bool)
  | [] => some (st, [], true)
  | m :: ms =>
    match childrenHandle st m with
    | none => none
    | some (st1, evs, false) => some (st1, evs, false)
    | some (st1, evs, true) =>
      match childrenReplay st1 ms with
      | none => none
      | some (st2, evs2, c) => some (st2, evs ++ evs2, c)

/-- `Children::run`: each iteration probes the inbox once.
`Start` (matched first, whether or not the group is started) sets the
flag, fans out `Start`, drains the buffer and replays it; any other
message is buffered while inactive and handled while active; a closed
inbox kills everything and emits `Faulted{self.id}`. -/
def childrenRun (st : ChildrenSt) : List InboxPoll → ChildrenRunOutcome
  | [] => .running st []
  | p :: ps =>
    match p with
    | .pending => childrenRun st ps
    | .closed =>
        let r := childrenKill st
        .returned r.1 (r.2 ++ [Event.faultedUp st.id])
    | .ready msg =>
        if msg = BastionMessage.start then
          let st1 := { st with started := true, preStartMsgs := [] }
          match childrenReplay st1 st.preStartMsgs with
          | none => .panicked [Event.sendChildren .start]
          | some (st2, evs, false) =>
              .returned st2 (Event.sendChildren .start :: evs)
          | some (st2, evs, true) =>
              prependEvents (Event.sendChildren .start :: evs)
                (childrenRun st2 ps)
        else if st.started then
          match childrenHandle st msg with
          | none => .panicked []
          | some (st1, evs, false) => .returned st1 evs
          | some (st1, evs, true) => prependEvents evs (childrenRun st1 ps)
        else
          childrenRun { st with preStartMsgs := st.preStartMsgs ++ [msg] } ps

/-- `FxHashMap::insert` keyed by a `BastionId`: inserting an id already
present replaces its value and leaves the key set unchanged; a fresh id
extends the key set. -/
def insertId (id : Nat) (launched : List Nat) : List Nat :=
  if id ∈ launched then launched else launched ++ [id]

/-- The `for _ in 0..self.redundancy` loop of `Children::launch_elems`:
each iteration creates a fresh broadcast endpoint (fresh id) and inserts
the new element into the `launched` map. -/
def launchLoop : Nat → List Nat → Nat → List Nat × Nat
  | 0, launched, next => (launched, next)
  | n + 1, launched, next => launchLoop n (insertId next launched) (next + 1)

/-- `Children::launch_elems`: spawn `redundancy` fresh elements,
inserting each into the existing `launched` map. -/
def launchElems (st : ChildrenSt) : ChildrenSt :=
  let r := launchLoop st.redundancy st.launched st.nextId
  { st with launched := r.1, nextId := r.2 }

/-- Keep only the upward terminal notices among the emitted events. -/
def upNotices (evs : List Event) : List Event :=
  evs.filter fun e =>
    match e with
    | .stoppedUp _ => true
    | .faultedUp _ => true
    | _ => false

/-- The terminal-notice discipline required of a group run with id
`selfId`: on every path where the run loop has returned it has sent
exactly one upward notice — `Stopped{selfId}` or `Faulted{selfId}` —
and while it is still looping it has sent none. -/
def noticesOk (selfId : Nat) : ChildrenRunOutcome → Prop
  | .returned _ evs =>
      upNotices evs = [Event.stoppedUp selfId] ∨
        upNotices evs = [Event.faultedUp selfId]
  | .running _ evs => upNotices evs = []
  | .panicked _ => True

/-- One poll of the user future held by a `Child` (field `exec`): the
future is modelled by the list of results its successive polls return
(a future never polled again after completing). -/
inductive ExecPoll where
  | pending
  | ok
  | err
deriving DecidableEq

/-- State of a `Child` element driver (struct `Child`): broadcast id,
the user future, the `ContextState` queue of delivered payloads (held
behind the `Qutex`), the pre-start buffer and the activation flag. -/
structure ChildSt where
  id : Nat
  exec : List ExecPoll
  stateSlot : List Nat
  preStartMsgs : List BastionMessage
  started : Bool
deriving DecidableEq

/-- `Child::new`: fresh element with an empty pre-start buffer, not
started, and an empty `ContextState` queue. -/
def childNew (id : Nat) (exec : List ExecPoll) : ChildSt :=
  { id := id
    exec := exec
    stateSlot := []
    preStartMsgs := []
    started := false }

/-- `Init::default()`: the closure `|_| async { Ok(()) }` — a future
that completes with `Ok(())` on its first poll. -/
def initDefault : List ExecPoll := [ExecPoll.ok]

/-- `Child::handle`: `Stop` and `Kill` both emit `Stopped{self.id}` and
terminate; a user `Message` is pushed into the `ContextState` queue
under the lock; `Start` is `unreachable!` and the remaining variants
are `unimplemented!` (modelled as `none`/panic). -/
def childHandle (st : ChildSt) (msg : BastionMessage) :
    Option (ChildSt × List Event × Bool) :=
  match msg with
  | .start => none
  | .stop => some (st, [Event.stoppedUp st.id], false)
  | .kill => some (st, [Event.stoppedUp st.id], false)
  | .deploy => none
  | .prune => none
  | .superviseWith => none
  | .message _ p =>
      some ({ st with stateSlot := st.stateSlot ++ [p] }, [], true)
  | .stopped _ => none
  | .faulted _ => none

/-- Outcome of running an element driver against a finite inbox trace:
`Child::run` returns `()`, so the `returned` outcome records only the
emitted events. -/
inductive ChildRunOutcome where
  | returned (events : List Event)
  | running (st : ChildSt) (events : List Event)
  | panicked (events : List Event)
deriving DecidableEq

/-- Prefix previously-emitted events onto an element run outcome. -/
def childPrependEvents (evs : List Event) : ChildRunOutcome → ChildRunOutcome
  | .returned e => .returned (evs ++ e)
  | .running st e => .running st (evs ++ e)
  | .panicked e => .panicked (evs ++ e)

/-- The replay loop inside `Child::run`'s `Start` arm: feed each
buffered message through `Child::handle`, stopping at the first
`Err(())`. -/
def childReplay (st : ChildSt) :
    List BastionMessage → Option (ChildSt × List Event × Bool)
  | [] => some (st, [], true)
  | m :: ms =>
    match childHandle st m with
    | none => none
    | some (st1, evs, false) => some (st1, evs, false)
    | some (st1, evs, true) =>
      match childReplay st1 ms with
      | none => none
      | some (st2, evs2, c) => some (st2, evs ++ evs2, c)

/-- `Child::run`: each iteration probes the inbox once; every
`Ready(Some(_))` arm continues the loop without polling the user
future, a closed inbox emits `Faulted{self.id}` and returns, and on
`Pending` the user future is polled once — only when started —
terminating with `Stopped{self.id}` on `Ok(())` and `Faulted{self.id}`
on `Err(())`. -/
def childRun (st : ChildSt) : List InboxPoll → ChildRunOutcome
  | [] => .running st []
  | p :: ps =>
    match p with
    | .closed => .returned [Event.faultedUp st.id]
    | .ready msg =>
        if msg = BastionMessage.start then
          let st1 := { st with started := true, preStartMsgs := [] }
          match childReplay st1 st.preStartMsgs with
          | none => .panicked []
          | some (_, evs, false) => .returned evs
          | some (st2, evs, true) => childPrependEvents evs (childRun st2 ps)
        else if st.started then
          match childHandle st msg with
          | none => .panicked []
          | some (_, evs, false) => .returned evs
          | some (st1, evs, true) => childPrependEvents evs (childRun st1 ps)
        else
          childRun { st with preStartMsgs := st.preStartMsgs ++ [msg] } ps
    | .pending =>
        if st.started then
          match st.exec with
          | ExecPoll.ok :: _ => .returned [Event.stoppedUp st.id]
          | ExecPoll.err :: _ => .returned [Event.faultedUp st.id]
          | ExecPoll.pending :: rest => childRun { st with exec := rest } ps
          | [] => childRun st ps
        else
          childRun st ps

/-- A channel sender endpoint, as the reference handles see it: it is
either still connected to the target's inbox or the target has
terminated and the channel is closed. -/
structure SenderSt where
  closed : Bool
deriving DecidableEq

/-- Modelled from the spec: `Sender::unbounded_send` (the unbounded
channel of the broadcast layer, outside the embedded file) delivers the
message when the receiver is alive and otherwise fails, handing the
unsent message back (`err.into_inner()`). -/
def unboundedSend (s : SenderSt) (msg : BastionMessage) :
    Except BastionMessage Unit :=
  if s.closed then .error msg else .ok ()

/-- Modelled from the spec: `BastionMessage::into_msg` (in
`message.rs`, outside the embedded file) recovers the user payload from
a `Message` envelope and is `None` on the other variants. -/
def intoMsg : BastionMessage → Option Nat
  | .message _ p => some p
  | _ => none

/-- `.unwrap()` on the payload recovered by `intoMsg`: the senders only
apply it to the `Message` envelope they just failed to send, so the
`none` arm (a panic at run time) is unreachable there. -/
def unwrapMsg (o : Option Nat) : Nat := o.getD 0

/-- The `ChildRef` reference handle: id plus sender. -/
structure ChildRefSt where
  id : Nat
  sender : SenderSt
deriving DecidableEq

/-- The `ChildrenRef` reference handle: id, sender, and a snapshot of
the group's `ChildRef`s. -/
structure ChildrenRefSt where
  id : Nat
  sender : SenderSt
  children : List ChildRefSt
deriving DecidableEq

/-- `ChildRef::send`: forward through the sender, mapping a failure to
the unsent `BastionMessage`. -/
def childRefSend (r : ChildRefSt) (msg : BastionMessage) :
    Except BastionMessage Unit :=
  unboundedSend r.sender msg

/-- `ChildrenRef::send`: forward through the group sender, mapping a
failure to the unsent `BastionMessage`. -/
def childrenRefSend (r : ChildrenRefSt) (msg : BastionMessage) :
    Except BastionMessage Unit :=
  unboundedSend r.sender msg

/-- `ChildrenRef::broadcast`: wrap the payload as a broadcast `Message`
and send it, returning the payload itself on failure. -/
def childrenRefBroadcast (r : ChildrenRefSt) (p : Nat) : Except Nat Unit :=
  match childrenRefSend r (.message .broadcastMsg p) with
  | .ok _ => .ok ()
  | .error m => .error (unwrapMsg (intoMsg m))

/-- `ChildRef::tell`: wrap the payload as a tell `Message` and send it,
returning the payload itself on failure. -/
def childRefTell (r : ChildRefSt) (p : Nat) : Except Nat Unit :=
  match childRefSend r (.message .tellMsg p) with
  | .ok _ => .ok ()
  | .error m => .error (unwrapMsg (intoMsg m))

/-- `ChildRef::ask`: wrap the payload as an ask `Message` carrying a
fresh one-shot reply slot and send it; on success the caller gets the
`Answer` future (abstracted to a unit token), on failure the payload
back. -/
def childRefAsk (r : ChildRefSt) (p : Nat) : Except Nat Unit :=
  match childRefSend r (.message .askMsg p) with
  | .ok _ => .ok ()
  | .error m => .error (unwrapMsg (intoMsg m))

/-! ## Helper lemmas -/

theorem upNotices_nil : upNotices [] = [] := rfl

theorem upNotices_cons_send (m : BastionMessage) (l : List Event) :
    upNotices (Event.sendChildren m :: l) = upNotices l := rfl

theorem upNotices_cons_stopC (l : List Event) :
    upNotices (Event.stopChildren :: l) = upNotices l := rfl

theorem upNotices_cons_killC (l : List Event) :
    upNotices (Event.killChildren :: l) = upNotices l := rfl

theorem upNotices_cons_cancel (i : Nat) (l : List Event) :
    upNotices (Event.cancelHandle i :: l) = upNotices l := rfl

theorem upNotices_cons_stoppedUp (i : Nat) (l : List Event) :
    upNotices (Event.stoppedUp i :: l) = Event.stoppedUp i :: upNotices l := rfl

theorem upNotices_cons_faultedUp (i : Nat) (l : List Event) :
    upNotices (Event.faultedUp i :: l) = Event.faultedUp i :: upNotices l := rfl

theorem upNotices_append (a b : List Event) :
    upNotices (a ++ b) = upNotices a ++ upNotices b := by
  simp [upNotices, List.filter_append]

theorem upNotices_cancelMap (l : List Nat) :
    upNotices (l.map Event.cancelHandle) = [] := by
  induction l with
  | nil => rfl
  | cons i l ih => simpa [upNotices_cons_cancel] using ih

theorem childrenKill_spec (st : ChildrenSt) :
    (childrenKill st).1 = { st with launched := [] } ∧
      upNotices (childrenKill st).2 = [] := by
  refine ⟨rfl, ?_⟩
  simp [childrenKill, upNotices_cons_killC, upNotices_cancelMap]

/-- `Children::handle` preserves the group id, emits no upward notice on
the `Ok` paths, and emits exactly one upward notice — `Stopped{self.id}`
or `Faulted{self.id}` — on every `Err` path. -/
theorem childrenHandle_spec (st : ChildrenSt) (msg : BastionMessage)
    (st1 : ChildrenSt) (evs : List Event) (c : Bool)
    (h : childrenHandle st msg = some (st1, evs, c)) :
    st1.id = st.id ∧
      (c = true → upNotices evs = []) ∧
      (c = false →
        upNotices evs = [Event.stoppedUp st.id] ∨
          upNotices evs = [Event.faultedUp st.id]) := by
  cases msg with
  | start => simp [childrenHandle] at h
  | stop =>
      simp [childrenHandle, childrenStop] at h
      obtain ⟨h1, h2, h3⟩ := h
      subst h1; subst h2; subst h3
      refine ⟨rfl, by simp, fun _ => Or.inl ?_⟩
      simp [upNotices_cons_stopC, upNotices_cons_stoppedUp, upNotices_nil]
  | kill =>
      simp [childrenHandle, childrenKill] at h
      obtain ⟨h1, h2, h3⟩ := h
      subst h1; subst h2; subst h3
      refine ⟨rfl, by simp, fun _ => Or.inl ?_⟩
      simp [upNotices_append, upNotices_cons_killC, upNotices_cancelMap,
        upNotices_cons_stoppedUp, upNotices_nil]
  | deploy => simp [childrenHandle] at h
  | prune => simp [childrenHandle] at h
  | superviseWith => simp [childrenHandle] at h
  | message k p =>
      simp [childrenHandle] at h
      obtain ⟨h1, h2, h3⟩ := h
      subst h1; subst h2; subst h3
      exact ⟨rfl, fun _ => rfl, by simp⟩
  | stopped cid =>
      by_cases hmem : cid ∈ st.launched
      · simp [childrenHandle, childrenStop, hmem] at h
        obtain ⟨h1, h2, h3⟩ := h
        subst h1; subst h2; subst h3
        refine ⟨rfl, by simp, fun _ => Or.inl ?_⟩
        simp [upNotices_cons_stopC, upNotices_cons_stoppedUp, upNotices_nil]
      · simp [childrenHandle, hmem] at h
        obtain ⟨h1, h2, h3⟩ := h
        subst h1; subst h2; subst h3
        exact ⟨rfl, fun _ => rfl, by simp⟩
  | faulted cid =>
      by_cases hmem : cid ∈ st.launched
      · simp [childrenHandle, childrenKill, hmem] at h
        obtain ⟨h1, h2, h3⟩ := h
        subst h1; subst h2; subst h3
        refine ⟨rfl, by simp, fun _ => Or.inr ?_⟩
        simp [upNotices_append, upNotices_cons_killC, upNotices_cancelMap,
          upNotices_cons_stoppedUp, upNotices_cons_faultedUp, upNotices_nil]
      · simp [childrenHandle, hmem] at h
        obtain ⟨h1, h2, h3⟩ := h
        subst h1; subst h2; subst h3
        exact ⟨rfl, fun _ => rfl, by simp⟩

/-- The replay loop preserves the group id, emits no upward notice when
it completes all messages with `Ok`, and emits exactly one upward
notice when some handled message returns `Err`. -/
theorem childrenReplay_spec (msgs : List BastionMessage) (st : ChildrenSt)
    (st2 : ChildrenSt) (evs : List Event) (c : Bool)
    (h : childrenReplay st msgs = some (st2, evs, c)) :
    st2.id = st.id ∧
      (c = true → upNotices evs = []) ∧
      (c = false →
        upNotices evs = [Event.stoppedUp st.id] ∨
          upNotices evs = [Event.faultedUp st.id]) := by
  induction msgs generalizing st st2 evs c with
  | nil =>
      simp [childrenReplay] at h
      obtain ⟨h1, h2, h3⟩ := h
      subst h1; subst h2; subst h3
      exact ⟨rfl, fun _ => rfl, by simp⟩
  | cons m ms ih =>
      simp only [childrenReplay] at h
      cases hh : childrenHandle st m with
      | none => rw [hh] at h; simp at h
      | some r =>
          obtain ⟨st1, evs1, c1⟩ := r
          rw [hh] at h
          obtain ⟨hid1, hok1, herr1⟩ := childrenHandle_spec st m st1 evs1 c1 hh
          cases c1 with
          | false =>
              simp at h
              obtain ⟨h1, h2, h3⟩ := h
              subst h1; subst h2; subst h3
              exact ⟨hid1, by simp, fun _ => herr1 rfl⟩
          | true =>
              simp only at h
              cases hrep : childrenReplay st1 ms with
              | none => rw [hrep] at h; simp at h
              | some r2 =>
                  obtain ⟨st3, evs2, c2⟩ := r2
                  rw [hrep] at h
                  simp at h
                  obtain ⟨h1, h2, h3⟩ := h
                  subst h1; subst h2; subst h3
                  obtain ⟨hid2, hok2, herr2⟩ := ih st1 st3 evs2 c2 hrep
                  refine ⟨hid2.trans hid1, ?_, ?_⟩
                  · intro hc
                    simp [upNotices_append, hok1 rfl, hok2 hc]
                  · intro hc
                    rw [upNotices_append, hok1 rfl]
                    rw [hid1] at herr2
                    simpa using herr2 hc

/-! ## Claim theorems -/

/-- Claim C1: for every run of the `Children` group task, on every path
by which `Children::run` returns, the group has sent exactly one
terminal notice upward — either `Stopped{self.id}` or
`Faulted{self.id}` — never both and never none; while the loop has not
returned, no terminal notice has been sent. -/
theorem childrenRun_exactly_one_terminal_notice
    (ps : List InboxPoll) (st : ChildrenSt) :
    noticesOk st.id (childrenRun st ps) := by
  induction ps generalizing st with
  | nil => simp [childrenRun, noticesOk, upNotices_nil]
  | cons p ps ih =>
      cases p with
      | pending => simpa only [childrenRun] using ih st
      | closed =>
          simp only [childrenRun, noticesOk]
          right
          rw [upNotices_append, (childrenKill_spec st).2]
          rfl
      | ready msg =>
          by_cases hs : msg = BastionMessage.start
          · subst hs
            simp only [childrenRun, if_pos]
            cases hrep : childrenReplay
                { st with started := true, preStartMsgs := [] }
                st.preStartMsgs with
            | none => simp [noticesOk]
            | some r =>
                obtain ⟨st3, evs1, c1⟩ := r
                obtain ⟨hid, hok, herr⟩ := childrenReplay_spec
                  st.preStartMsgs _ st3 evs1 c1 hrep
                cases c1 with
                | false =>
                    simp only [noticesOk, upNotices_cons_send]
                    simpa using herr rfl
                | true =>
                    dsimp only
                    have h3 := ih st3
                    cases hrun : childrenRun st3 ps with
                    | returned st4 evs2 =>
                        rw [hrun] at h3
                        simp only [noticesOk] at h3
                        rw [hid] at h3
                        simp only [prependEvents, noticesOk]
                        rw [List.cons_append, upNotices_cons_send,
                          upNotices_append, hok rfl, List.nil_append]
                        simpa using h3
                    | running st4 evs2 =>
                        rw [hrun] at h3
                        simp only [noticesOk] at h3
                        simp only [prependEvents, noticesOk]
                        rw [List.cons_append, upNotices_cons_send,
                          upNotices_append, hok rfl, List.nil_append]
                        exact h3
                    | panicked evs2 => simp [prependEvents, noticesOk]
          · by_cases hst : st.started
            · simp only [childrenRun, if_neg hs, if_pos hst]
              cases hh : childrenHandle st msg with
              | none => simp [noticesOk]
              | some r =>
                  obtain ⟨st1, evs1, c1⟩ := r
                  obtain ⟨hid, hok, herr⟩ :=
                    childrenHandle_spec st msg st1 evs1 c1 hh
                  cases c1 with
                  | false =>
                      simp only [noticesOk]
                      exact herr rfl
                  | true =>
                      dsimp only
                      have h3 := ih st1
                      cases hrun : childrenRun st1 ps with
                      | returned st4 evs2 =>
                          rw [hrun] at h3
                          simp only [noticesOk] at h3
                          rw [hid] at h3
                          simp only [prependEvents, noticesOk]
                          rw [upNotices_append, hok rfl, List.nil_append]
                          exact h3
                      | running st4 evs2 =>
                          rw [hrun] at h3
                          simp only [noticesOk] at h3
                          simp only [prependEvents, noticesOk]
                          rw [upNotices_append, hok rfl, List.nil_append]
                          exact h3
                      | panicked evs2 => simp [prependEvents, noticesOk]
            · simpa only [childrenRun, if_neg hs, if_neg hst] using
                ih { st with preStartMsgs := st.preStartMsgs ++ [msg] }

theorem prependEvents_nil (o : ChildrenRunOutcome) :
    prependEvents [] o = o := by
  cases o <;> simp [prependEvents]

theorem childPrependEvents_nil (o : ChildRunOutcome) :
    childPrependEvents [] o = o := by
  cases o <;> simp [childPrependEvents]

/-- Claim C2: an active group receiving `Kill` fans out `Kill` to all
elements, cancels and drains every element handle (the launched map is
emptied), emits `Stopped{self.id}` — not `Faulted` — upward, and
terminates. -/
theorem childrenRun_kill_active (st : ChildrenSt) (ps : List InboxPoll)
    (hst : st.started = true) :
    childrenRun st (.ready .kill :: ps) =
      .returned { st with launched := [] }
        (Event.killChildren :: st.launched.map Event.cancelHandle ++
          [Event.stoppedUp st.id]) := by
  simp [childrenRun, childrenHandle, childrenKill, hst]

theorem childrenRun_kill_active_witness :
    childrenRun ⟨7, [1, 2], 2, [], true, 3⟩
        [InboxPoll.ready BastionMessage.kill] =
      ChildrenRunOutcome.returned ⟨7, [], 2, [], true, 3⟩
        [Event.killChildren, Event.cancelHandle 1, Event.cancelHandle 2,
          Event.stoppedUp 7] := by
  have h := childrenRun_kill_active ⟨7, [1, 2], 2, [], true, 3⟩ [] rfl
  simpa using h

/-- Claim C6: an active element emits `Stopped{self.id}` and terminates
on `Stop` or `Kill`; when polling the user future completes, `Ok(())`
leads to `Stopped{self.id}` and `Err(())` to `Faulted{self.id}`. -/
theorem childRun_terminal_transitions (st : ChildSt) (ps : List InboxPoll)
    (hst : st.started = true) :
    childRun st (.ready .stop :: ps) = .returned [Event.stoppedUp st.id] ∧
    childRun st (.ready .kill :: ps) = .returned [Event.stoppedUp st.id] ∧
    (∀ rest, st.exec = ExecPoll.ok :: rest →
      childRun st (.pending :: ps) = .returned [Event.stoppedUp st.id]) ∧
    (∀ rest, st.exec = ExecPoll.err :: rest →
      childRun st (.pending :: ps) = .returned [Event.faultedUp st.id]) := by
  refine ⟨?_, ?_, ?_, ?_⟩
  · simp [childRun, childHandle, hst]
  · simp [childRun, childHandle, hst]
  · intro rest h
    simp [childRun, hst, h]
  · intro rest h
    simp [childRun, hst, h]

theorem childRun_terminal_transitions_witness :
    childRun ⟨5, [ExecPoll.ok], [], [], true⟩ [InboxPoll.ready .stop] =
      .returned [Event.stoppedUp 5] ∧
    childRun ⟨5, [ExecPoll.ok], [], [], true⟩ [InboxPoll.ready .kill] =
      .returned [Event.stoppedUp 5] ∧
    childRun ⟨5, [ExecPoll.ok], [], [], true⟩ [InboxPoll.pending] =
      .returned [Event.stoppedUp 5] ∧
    childRun ⟨6, [ExecPoll.err], [], [], true⟩ [InboxPoll.pending] =
      .returned [Event.faultedUp 6] :=
  ⟨(childRun_terminal_transitions ⟨5, [ExecPoll.ok], [], [], true⟩ [] rfl).1,
    (childRun_terminal_transitions ⟨5, [ExecPoll.ok], [], [], true⟩ [] rfl).2.1,
    (childRun_terminal_transitions ⟨5, [ExecPoll.ok], [], [], true⟩ [] rfl).2.2.1
      [] rfl,
    (childRun_terminal_transitions ⟨6, [ExecPoll.err], [], [], true⟩ [] rfl).2.2.2
      [] rfl⟩

/-- Claim C7: an active group receiving `Stopped{id}` with `id` in the
launched map stops the remaining elements, emits `Stopped{self.id}` and
terminates; receiving `Faulted{id}` with `id` launched kills the
remaining elements, emits `Faulted{self.id}` and terminates; a notice
with an unknown id is ignored and the group continues unchanged. -/
theorem childrenRun_child_notice (st : ChildrenSt) (ps : List InboxPoll)
    (cid : Nat) (hst : st.started = true) :
    (cid ∈ st.launched →
      childrenRun st (.ready (.stopped cid) :: ps) =
        .returned { st with launched := [] }
          [Event.stopChildren, Event.stoppedUp st.id]) ∧
    (cid ∈ st.launched →
      childrenRun st (.ready (.faulted cid) :: ps) =
        .returned { st with launched := [] }
          (Event.killChildren :: st.launched.map Event.cancelHandle ++
            [Event.faultedUp st.id])) ∧
    (cid ∉ st.launched →
      childrenRun st (.ready (.stopped cid) :: ps) = childrenRun st ps ∧
      childrenRun st (.ready (.faulted cid) :: ps) = childrenRun st ps) := by
  refine ⟨?_, ?_, ?_⟩
  · intro hmem
    simp [childrenRun, childrenHandle, childrenStop, hst, hmem]
  · intro hmem
    simp [childrenRun, childrenHandle, childrenKill, hst, hmem]
  · intro hmem
    constructor <;>
      simp [childrenRun, childrenHandle, hst, hmem, prependEvents_nil]

theorem childrenRun_child_notice_witness :
    childrenRun ⟨7, [1, 2], 2, [], true, 3⟩
        [InboxPoll.ready (BastionMessage.stopped 1)] =
      .returned ⟨7, [], 2, [], true, 3⟩
        [Event.stopChildren, Event.stoppedUp 7] ∧
    childrenRun ⟨7, [1, 2], 2, [], true, 3⟩
        [InboxPoll.ready (BastionMessage.faulted 1)] =
      .returned ⟨7, [], 2, [], true, 3⟩
        [Event.killChildren, Event.cancelHandle 1, Event.cancelHandle 2,
          Event.faultedUp 7] ∧
    childrenRun ⟨7, [1, 2], 2, [], true, 3⟩
        [InboxPoll.ready (BastionMessage.stopped 9)] =
      childrenRun ⟨7, [1, 2], 2, [], true, 3⟩ [] := by
  have h := childrenRun_child_notice ⟨7, [1, 2], 2, [], true, 3⟩ [] 1 rfl
  have h9 := childrenRun_child_notice ⟨7, [1, 2], 2, [], true, 3⟩ [] 9 rfl
  refine ⟨?_, ?_, ?_⟩
  · simpa using h.1 (by decide)
  · simpa using h.2.1 (by decide)
  · exact (h9.2.2 (by decide)).1

/-- Claim C8: a closed inbox stream is treated as a fault: the group
kills all its elements, emits `Faulted{self.id}` upward and terminates;
an element emits `Faulted{self.id}` upward and terminates. -/
theorem inbox_closed_faults (st : ChildrenSt) (cst : ChildSt)
    (ps : List InboxPoll) :
    childrenRun st (.closed :: ps) =
      .returned { st with launched := [] }
        (Event.killChildren :: st.launched.map Event.cancelHandle ++
          [Event.faultedUp st.id]) ∧
    childRun cst (.closed :: ps) = .returned [Event.faultedUp cst.id] := by
  constructor
  · simp [childrenRun, childrenKill]
  · simp [childRun]

/-- Claim C9: `ChildrenRef::broadcast` and `ChildRef::tell` return
`Ok(())` when the send succeeds and `Err` carrying exactly the unsent
payload when the target's inbox is closed; `ChildRef::ask` likewise
returns `Err(payload)` on send failure and otherwise the `Answer`. -/
theorem refs_send_results (gid cid p : Nat) (kids : List ChildRefSt) :
    childrenRefBroadcast ⟨gid, ⟨false⟩, kids⟩ p = .ok () ∧
    childrenRefBroadcast ⟨gid, ⟨true⟩, kids⟩ p = .error p ∧
    childRefTell ⟨cid, ⟨false⟩⟩ p = .ok () ∧
    childRefTell ⟨cid, ⟨true⟩⟩ p = .error p ∧
    childRefAsk ⟨cid, ⟨false⟩⟩ p = .ok () ∧
    childRefAsk ⟨cid, ⟨true⟩⟩ p = .error p :=
  ⟨rfl, rfl, rfl, rfl, rfl, rfl⟩

/-- Claim C10: a group built by `Children::new` has redundancy 1, is
inactive, has an empty launched map and empty pre-start buffer; the
default factory's future completes immediately with `Ok(())`, so an
element running it terminates successfully (`Stopped`) once started. -/
theorem children_new_defaults (b cid : Nat) (ps : List InboxPoll) :
    (childrenNew b).redundancy = 1 ∧
    (childrenNew b).started = false ∧
    (childrenNew b).launched = [] ∧
    (childrenNew b).preStartMsgs = [] ∧
    initDefault = [ExecPoll.ok] ∧
    childRun (childNew cid initDefault)
        (InboxPoll.ready .start :: InboxPoll.pending :: ps) =
      .returned [Event.stoppedUp cid] := by
  refine ⟨rfl, rfl, rfl, rfl, rfl, ?_⟩
  simp [childRun, childNew, childReplay, initDefault, childPrependEvents_nil]

/-- Counterexample to claim C4: a `Start` received by an already-active
group (empty pre-start buffer, as in any reachable active state) leaves
the state unchanged but is NOT ignored: `Start` is fanned out to the
elements again, so at least one downward send happens. -/
theorem start_while_active_fans_out :
    childrenRun ⟨0, [], 1, [], true, 1⟩ [InboxPoll.ready .start] =
      .running ⟨0, [], 1, [], true, 1⟩
        [Event.sendChildren BastionMessage.start] ∧
    ([Event.sendChildren BastionMessage.start] : List Event) ≠ [] := by
  decide

/-- Claim C4 (amended): a `Start` received while the group is already
active (with the pre-start buffer empty, as it is in every reachable
active state) leaves the group state unchanged — launched map, buffer
and flag — but fans `Start` out to the elements once more. -/
theorem childrenRun_start_while_active (st : ChildrenSt)
    (ps : List InboxPoll) (hst : st.started = true)
    (hpre : st.preStartMsgs = []) :
    childrenRun st (.ready .start :: ps) =
      prependEvents [Event.sendChildren .start] (childrenRun st ps) := by
  have hst1 : { st with started := true, preStartMsgs := [] } = st := by
    cases st
    simp_all
  simp [childrenRun, hpre, hst1, childrenReplay]

theorem childrenRun_start_while_active_witness :
    childrenRun ⟨0, [], 1, [], true, 1⟩ [InboxPoll.ready .start] =
      prependEvents [Event.sendChildren .start]
        (childrenRun ⟨0, [], 1, [], true, 1⟩ []) :=
  childrenRun_start_while_active ⟨0, [], 1, [], true, 1⟩ [] rfl rfl

/-- Counterexample to claim C5: `launch_elems` does not replace the
launched map — calling it twice on a fresh group with redundancy 1
leaves 2 launched elements, not 1. -/
theorem launchElems_twice_not_idempotent :
    (childrenNew 0).redundancy = 1 ∧
    (launchElems (launchElems (childrenNew 0))).launched.length = 2 := by
  decide

/-- The launch loop inserts one freshly-identified element per
iteration; fresh ids never collide with already-launched ones. -/
theorem launchLoop_spec (n : Nat) :
    ∀ launched next, (∀ i ∈ launched, i < next) →
      (launchLoop n launched next).1.length = launched.length + n ∧
      ∀ i ∈ (launchLoop n launched next).1,
        i < (launchLoop n launched next).2 := by
  induction n with
  | zero =>
      intro l next h
      exact ⟨rfl, h⟩
  | succ n ih =>
      intro l next h
      have hnot : next ∉ l := fun hm => absurd (h next hm) (by omega)
      have hins : insertId next l = l ++ [next] := by
        simp [insertId, hnot]
      have hinv : ∀ i ∈ insertId next l, i < next + 1 := by
        rw [hins]
        intro i hi
        rcases List.mem_append.1 hi with hi | hi
        · exact Nat.lt_succ_of_lt (h i hi)
        · simp at hi
          omega
      obtain ⟨h1, h2⟩ := ih (insertId next l) (next + 1) hinv
      refine ⟨?_, ?_⟩
      · show (launchLoop n (insertId next l) (next + 1)).1.length =
          l.length + (n + 1)
        rw [h1, hins]
        simp
        omega
      · exact h2

/-- Claim C5 (amended): `launch_elems` appends `redundancy` freshly-
identified elements to the existing launched map rather than replacing
it: one call on an empty map yields exactly `redundancy` elements, and
each further call adds `redundancy` more (so two calls yield 2N). -/
theorem launchElems_appends_redundancy (st : ChildrenSt)
    (hfresh : ∀ i ∈ st.launched, i < st.nextId) :
    (launchElems st).launched.length =
      st.launched.length + st.redundancy ∧
    ∀ i ∈ (launchElems st).launched, i < (launchElems st).nextId := by
  obtain ⟨h1, h2⟩ := launchLoop_spec st.redundancy st.launched st.nextId hfresh
  exact ⟨h1, h2⟩

theorem launchElems_appends_redundancy_witness :
    (launchElems (childrenNew 0)).launched.length = 1 ∧
    (launchElems (launchElems (childrenNew 0))).launched.length = 2 := by
  have h1 := launchElems_appends_redundancy (childrenNew 0) (by decide)
  have h2 := launchElems_appends_redundancy (launchElems (childrenNew 0))
    (launchElems_appends_redundancy (childrenNew 0) (by decide)).2
  exact ⟨by simpa using h1.1, by simpa using h2.1⟩

/-- While inactive, a run of user messages is buffered in arrival
order. -/
theorem childrenRun_buffer_phase (pres : List Nat) (st : ChildrenSt)
    (rest : List InboxPoll) (hst : st.started = false) :
    childrenRun st
        (pres.map (fun p => InboxPoll.ready (.message .broadcastMsg p)) ++
          rest) =
      childrenRun
        { st with preStartMsgs :=
            st.preStartMsgs ++
              pres.map (BastionMessage.message .broadcastMsg) }
        rest := by
  induction pres generalizing st with
  | nil => simp
  | cons p pres ih =>
      simp only [List.map_cons, List.cons_append]
      rw [show childrenRun st
          (InboxPoll.ready (.message .broadcastMsg p) ::
            (pres.map (fun p => InboxPoll.ready (.message .broadcastMsg p)) ++
              rest)) =
          childrenRun
            { st with preStartMsgs :=
                st.preStartMsgs ++ [BastionMessage.message .broadcastMsg p] }
            (pres.map (fun p => InboxPoll.ready (.message .broadcastMsg p)) ++
              rest) from by simp [childrenRun, hst]]
      have hst2 : ({ st with preStartMsgs :=
          st.preStartMsgs ++ [BastionMessage.message .broadcastMsg p] } :
            ChildrenSt).started = false := hst
      rw [ih _ hst2]
      simp

/-- Replaying a buffer of user messages fans each out in order and
leaves the group state unchanged. -/
theorem childrenReplay_messages (msgs : List Nat) (st : ChildrenSt) :
    childrenReplay st (msgs.map (BastionMessage.message .broadcastMsg)) =
      some (st,
        msgs.map (fun p => Event.sendChildren (.message .broadcastMsg p)),
        true) := by
  induction msgs generalizing st with
  | nil => simp [childrenReplay]
  | cons p msgs ih => simp [childrenReplay, childrenHandle, ih]

/-- While active, a run of user messages is fanned out one by one in
arrival order. -/
theorem childrenRun_active_messages (posts : List Nat) (st : ChildrenSt)
    (hst : st.started = true) :
    childrenRun st
        (posts.map (fun p => InboxPoll.ready (.message .broadcastMsg p))) =
      .running st
        (posts.map (fun p => Event.sendChildren (.message .broadcastMsg p))) := by
  induction posts generalizing st with
  | nil => simp [childrenRun]
  | cons p posts ih =>
      simp [childrenRun, childrenHandle, hst, ih, prependEvents]

/-- While inactive, an element buffers a run of user messages in
arrival order. -/
theorem childRun_buffer_phase (pres : List Nat) (st : ChildSt)
    (rest : List InboxPoll) (hst : st.started = false) :
    childRun st
        (pres.map (fun p => InboxPoll.ready (.message .tellMsg p)) ++
          rest) =
      childRun
        { st with preStartMsgs :=
            st.preStartMsgs ++ pres.map (BastionMessage.message .tellMsg) }
        rest := by
  induction pres generalizing st with
  | nil => simp
  | cons p pres ih =>
      simp only [List.map_cons, List.cons_append]
      rw [show childRun st
          (InboxPoll.ready (.message .tellMsg p) ::
            (pres.map (fun p => InboxPoll.ready (.message .tellMsg p)) ++
              rest)) =
          childRun
            { st with preStartMsgs :=
                st.preStartMsgs ++ [BastionMessage.message .tellMsg p] }
            (pres.map (fun p => InboxPoll.ready (.message .tellMsg p)) ++
              rest) from by simp [childRun, hst]]
      have hst2 : ({ st with preStartMsgs :=
          st.preStartMsgs ++ [BastionMessage.message .tellMsg p] } :
            ChildSt).started = false := hst
      rw [ih _ hst2]
      simp

/-- Replaying an element's buffer of user messages pushes each payload
into the `ContextState` queue in order, emitting nothing. -/
theorem childReplay_messages (msgs : List Nat) (st : ChildSt) :
    childReplay st (msgs.map (BastionMessage.message .tellMsg)) =
      some ({ st with stateSlot := st.stateSlot ++ msgs }, [], true) := by
  induction msgs generalizing st with
  | nil => simp [childReplay]
  | cons p msgs ih =>
      simp [childReplay, childHandle, ih]

/-- While active, an element pushes a run of user messages into the
`ContextState` queue in arrival order. -/
theorem childRun_active_messages (posts : List Nat) (st : ChildSt)
    (hst : st.started = true) :
    childRun st
        (posts.map (fun p => InboxPoll.ready (.message .tellMsg p))) =
      .running { st with stateSlot := st.stateSlot ++ posts } [] := by
  induction posts generalizing st with
  | nil => simp [childRun]
  | cons p posts ih =>
      simp [childRun, childHandle, hst, ih, childPrependEvents_nil]

/-- Claim C3: messages delivered before `Start` are buffered and, on
`Start`, replayed through the normal handler in arrival order strictly
before any post-`Start` message: the group fans out the pre-start
payloads then the post-start payloads in order, and an element's
`ContextState` queue ends up holding exactly `pres ++ posts`. -/
theorem preStart_buffer_replay_order (gid cid : Nat)
    (exec : List ExecPoll) (pres posts : List Nat) :
    childrenRun (childrenNew gid)
        (pres.map (fun p => InboxPoll.ready (.message .broadcastMsg p)) ++
          InboxPoll.ready .start ::
            posts.map (fun p => InboxPoll.ready (.message .broadcastMsg p))) =
      .running { childrenNew gid with started := true }
        (Event.sendChildren .start ::
          (pres ++ posts).map
            (fun p => Event.sendChildren (.message .broadcastMsg p))) ∧
    childRun (childNew cid exec)
        (pres.map (fun p => InboxPoll.ready (.message .tellMsg p)) ++
          InboxPoll.ready .start ::
            posts.map (fun p => InboxPoll.ready (.message .tellMsg p))) =
      .running { childNew cid exec with
                  started := true, stateSlot := pres ++ posts } [] := by
  constructor
  · rw [childrenRun_buffer_phase pres (childrenNew gid) _ rfl]
    simp only [childrenNew, List.nil_append]
    rw [show childrenRun
        { id := gid, launched := [], redundancy := 1,
          preStartMsgs := pres.map (BastionMessage.message .broadcastMsg),
          started := false, nextId := gid + 1 }
        (InboxPoll.ready .start ::
          posts.map (fun p => InboxPoll.ready (.message .broadcastMsg p))) =
        prependEvents
          (Event.sendChildren .start ::
            pres.map (fun p => Event.sendChildren (.message .broadcastMsg p)))
          (childrenRun
            { id := gid, launched := [], redundancy := 1,
              preStartMsgs := [], started := true, nextId := gid + 1 }
            (posts.map (fun p => InboxPoll.ready (.message .broadcastMsg p))))
        from by simp [childrenRun, childrenReplay_messages]]
    rw [childrenRun_active_messages posts _ rfl]
    simp [prependEvents]
  · rw [childRun_buffer_phase pres (childNew cid exec) _ rfl]
    simp only [childNew, List.nil_append]
    rw [show childRun
        { id := cid, exec := exec, stateSlot := [],
          preStartMsgs := pres.map (BastionMessage.message .tellMsg),
          started := false }
        (InboxPoll.ready .start ::
          posts.map (fun p => InboxPoll.ready (.message .tellMsg p))) =
        childPrependEvents []
          (childRun
            { id := cid, exec := exec, stateSlot := pres,
              preStartMsgs := [], started := true }
            (posts.map (fun p => InboxPoll.ready (.message .tellMsg p))))
        from by simp [childRun, childReplay_messages]]
    rw [childRun_active_messages posts _ rfl]
    simp [childPrependEvents]
